import Mathlib

/-
Verification development for the RNES 6502-class CPU core
(src/bus.rs, src/cpu.rs, src/opcode.rs).

Modelling conventions.
- Machine integers are Nat with explicit reduction: u8 values are taken
  modulo 256, u16 modulo 65536, u32 modulo 4294967296, at the points where
  the Rust code truncates or wraps.  Plain Rust arithmetic on unsigned
  integers wraps in the release profile; the main model below uses that
  wrapping semantics.  Where a claim is specifically about overflow
  behaviour, separate checked definitions (returning Option, with none
  standing for the overflow panic of the default dev profile) model the
  same source lines.
- The memory bus seen by the CPU is modelled as a total byte function
  (mem : Nat -> Nat, reads reduced mod 256), following the bus contract of
  the spec (16-bit byte-addressable space).  The concrete BUS struct of
  bus.rs, whose ram array has only 2048 cells, is modelled separately and
  exactly (BUSread / BUSwrite below); its failure to cover the 16-bit
  space is settled by its own claim.
- The source compares boxed function pointers with std::ptr::eq to decide
  whether the current addressing mode is the implied mode (fetch, asl,
  lsr).  Pointer identity has no shallow embedding; it is modelled as a
  boolean parameter isImp whose intended meaning is exactly the outcome
  of that comparison (true when the addressing mode of the current
  descriptor is imp).
- The opcode dispatch table is declared in the source as an empty vector
  (lookup_table in opcode.rs); the population code is absent from the
  repository, as the spec itself records.  Functions of cpu.rs that index
  the table are therefore parametrised by the table; the table contents
  required by the dispatch-table claim are modelled from the spec.
-/

/-- Status flag bit masks, from the StatusFlags enum of cpu.rs. -/
def FlagC : Nat := 1

/-- Zero flag bit mask. -/
def FlagZ : Nat := 2

/-- Interrupt disable flag bit mask. -/
def FlagI : Nat := 4

/-- Decimal flag bit mask. -/
def FlagD : Nat := 8

/-- Break flag bit mask. -/
def FlagB : Nat := 16

/-- Unused flag (called GFlag in the source) bit mask. -/
def FlagG : Nat := 32

/-- Overflow flag bit mask. -/
def FlagV : Nat := 64

/-- Negative flag bit mask. -/
def FlagN : Nat := 128

/-- CPU state, from the CPU struct of cpu.rs.  Register fields are u8
(values mod 256) except program_counter (u16), cycles (u8) and
clock_count (u32).  The field mem is the byte memory reached through the
connected bus, idealised as a total function per the bus contract. -/
structure CPUState where
  regx : Nat
  regy : Nat
  acu : Nat
  stack_pointer : Nat
  program_counter : Nat
  status : Nat
  fetched : Nat
  abs_addr : Nat
  rel_addr : Nat
  temp_op : Nat
  cur_opcode : Nat
  cycles : Nat
  clock_count : Nat
  mem : Nat → Nat

/-- get_flag of cpu.rs: 1 when the status register has the given bit. -/
def get_flag (flag : Nat) (cpu : CPUState) : Nat :=
  if cpu.status &&& flag > 0 then 1 else 0

/-- set_flag of cpu.rs: or the bit in when enabling, mask it out (with the
u8 complement of the bit) when disabling. -/
def set_flag (flag : Nat) (enable : Bool) (cpu : CPUState) : CPUState :=
  if enable then { cpu with status := cpu.status ||| flag }
  else { cpu with status := cpu.status &&& (255 ^^^ flag) }

/-- clear_flags of cpu.rs: mask the given bits out of the status register. -/
def clear_flags (flags : Nat) (cpu : CPUState) : CPUState :=
  { cpu with status := cpu.status &&& (255 ^^^ flags) }

/-- get_stack_address of cpu.rs: 0x0100 + stack pointer. -/
def get_stack_address (cpu : CPUState) : Nat :=
  256 + cpu.stack_pointer

/-- CPU read of cpu.rs: delegate to the connected bus; the returned value
is a byte. -/
def CPUread (cpu : CPUState) (address : Nat) : Nat :=
  cpu.mem address % 256

/-- CPU write of cpu.rs: delegate to the connected bus. -/
def CPUwrite (cpu : CPUState) (address data : Nat) : CPUState :=
  { cpu with mem := fun a => if a = address then data else cpu.mem a }

/-- complete of cpu.rs: true when the remaining-cycles counter is 0. -/
def complete (cpu : CPUState) : Bool :=
  cpu.cycles == 0

/-- BUS ram size from bus.rs: the ram field is a [u8; 2048] array. -/
def BUSramSize : Nat := 2048

/-- BUS read of bus.rs: index the ram array with the raw address.  The
Rust indexing panics when the address is not below the array length;
none models that panic. -/
def BUSread (ram : List Nat) (address : Nat) : Option Nat :=
  ram.get? address

/-- BUS write of bus.rs: store the byte at the raw address; none models
the out-of-bounds panic. -/
def BUSwrite (ram : List Nat) (address data : Nat) : Option (List Nat) :=
  if address < ram.length then some (ram.set address data) else none

/-- Initial BUS ram from bus.rs: 2048 default (zero) bytes. -/
def BUSinitialRam : List Nat := List.replicate BUSramSize 0

/-- Instruction descriptor, from the INSTRUCTION struct of opcode.rs.
The addressing-mode and operation members are state transformers that
also return the extra-cycle eligibility byte. -/
structure INSTRUCTION where
  name : String
  addr_mode : CPUState → CPUState × Nat
  operate : CPUState → CPUState × Nat
  cycles : Nat

/-- lookup_table exactly as declared in opcode.rs: an empty vector. -/
def lookup_table : List INSTRUCTION := []

/-- imp of opcode.rs: implied addressing, operand is the accumulator. -/
def imp (cpu : CPUState) : CPUState × Nat :=
  ({ cpu with fetched := cpu.acu }, 0)

/-- nop of opcode.rs: matches on the current opcode byte and does nothing
in either arm. -/
def nop (cpu : CPUState) : CPUState := cpu

/-- Modelled from the spec: the population of the opcode dispatch table is
absent from the source (lookup_table is declared as an empty vector and
the spec records that it is left unpopulated).  Per the spec, every
unmapped slot of the 256-entry table holds an explicit fallback no-op
descriptor with base cycle cost 2; official opcodes overwrite their
slots.  The builder fills 256 fallback slots and then sets the official
entries. -/
def fallbackInstr : INSTRUCTION :=
  { name := "NOP", addr_mode := imp, operate := fun c => (nop c, 0), cycles := 2 }

/-- Modelled from the spec: one-time builder of the 256-slot dispatch
table; official is the association list of official opcode entries. -/
def buildLookupTable (official : List (Nat × INSTRUCTION)) : List INSTRUCTION :=
  official.foldl (fun t e => t.set e.1 e.2) (List.replicate 256 fallbackInstr)

/-- First half of the idle branch of clock (cpu.rs lines 105 to 111):
read the opcode at the program counter, set the unused flag, advance the
program counter (u16 wrapping) and load the base cycle cost of the
descriptor. -/
def idleEntry (instr : INSTRUCTION) (cpu : CPUState) : CPUState :=
  { cpu with cur_opcode := CPUread cpu cpu.program_counter,
             status := cpu.status ||| FlagG,
             program_counter := (cpu.program_counter + 1) % 65536,
             cycles := instr.cycles }

/-- clock of cpu.rs, parametrised by the dispatch table (the source
indexes the global lookup_table; none models the out-of-bounds panic of
indexing an absent entry).  In the idle state (cycles == 0): perform the
idleEntry steps, run the addressing-mode function and the operation
function, add the bitwise AND of their returned bytes to the cycle
counter and set the unused flag again.  On every pulse the cumulative
pulse counter is incremented (u32 wrapping) and the cycle counter
decremented (u8 wrapping). -/
def clock (table : List INSTRUCTION) (cpu : CPUState) : Option CPUState :=
  if cpu.cycles = 0 then
    match table.get? (CPUread cpu cpu.program_counter) with
    | none => none
    | some instr =>
      let r1 := instr.addr_mode (idleEntry instr cpu)
      let r2 := instr.operate r1.1
      let c2 : CPUState :=
        { r2.1 with cycles := (r2.1.cycles + (r1.2 &&& r2.2)) % 256,
                    status := r2.1.status ||| FlagG }
      some { c2 with clock_count := (c2.clock_count + 1) % 4294967296,
                     cycles := (c2.cycles + 255) % 256 }
  else
    some { cpu with clock_count := (cpu.clock_count + 1) % 4294967296,
                    cycles := (cpu.cycles + 255) % 256 }

/-- Common body of interrupt_request (cpu.rs lines 127 to 160) and
non_maskable_input (cpu.rs lines 164 to 195), whose texts are identical
except for the vector addresses and the final cycle count: push the
program counter high byte, then the low byte, then the status register
with Break cleared, the unused flag set and interrupt-disable set,
decrementing the stack pointer (u8 wrapping) after each push; then load
the program counter from the two vector bytes and set the cycle
counter. -/
def interruptBody (vlo vhi cyc : Nat) (cpu : CPUState) : CPUState :=
  let c1 := CPUwrite cpu (get_stack_address cpu) ((cpu.program_counter >>> 8) &&& 255)
  let c1 := { c1 with stack_pointer := (c1.stack_pointer + 255) % 256 }
  let c2 := CPUwrite c1 (get_stack_address c1) (c1.program_counter &&& 255)
  let c2 := { c2 with stack_pointer := (c2.stack_pointer + 255) % 256 }
  let c3 := set_flag FlagI true (set_flag FlagG true (set_flag FlagB false c2))
  let c4 := CPUwrite c3 (get_stack_address c3) c3.status
  let c4 := { c4 with stack_pointer := (c4.stack_pointer + 255) % 256 }
  let lo := CPUread c4 vlo
  let hi := CPUread c4 vhi
  { c4 with program_counter := (hi <<< 8) ||| lo, cycles := cyc }

/-- interrupt_request of cpu.rs: only when the interrupt-disable flag is
clear, run the push sequence, load the program counter from
0xFFFE/0xFFFF and set the cycle counter to 7. -/
def interrupt_request (cpu : CPUState) : CPUState :=
  if get_flag FlagI cpu = 0 then interruptBody 65534 65535 7 cpu else cpu

/-- non_maskable_input of cpu.rs: the same push sequence,
unconditionally; the program counter is loaded from 0xFFFA/0xFFFB and
the cycle counter set to 8. -/
def non_maskable_input (cpu : CPUState) : CPUState :=
  interruptBody 65530 65531 8 cpu

/-- fetch of cpu.rs.  The source compares the addressing-mode member of
the current descriptor against a freshly boxed imp with std::ptr::eq and,
WHEN THE COMPARISON HOLDS (that is, when the mode is the implied mode),
assigns fetched from the byte at the effective address; otherwise it does
nothing.  The comparison outcome is the parameter isImp. -/
def fetch (isImp : Bool) (cpu : CPUState) : CPUState :=
  if isImp then { cpu with fetched := CPUread cpu cpu.abs_addr } else cpu

/-- check_if_zero_or_negative_u16 of opcode.rs: when the low byte of the
value is 0, set the Zero flag; otherwise when bit 7 of the low byte is
set, set the Negative flag; otherwise leave the status unchanged. -/
def check_if_zero_or_negative_u16 (cpu : CPUState) (value : Nat) : CPUState :=
  if value &&& 255 = 0 then set_flag FlagZ true cpu
  else if (value &&& 255) &&& 128 ≠ 0 then set_flag FlagN true cpu
  else cpu

/-- check_if_zero_or_negative_u8 of opcode.rs: byte variant of the rule. -/
def check_if_zero_or_negative_u8 (cpu : CPUState) (value : Nat) : CPUState :=
  if value = 0 then set_flag FlagZ true cpu
  else if value &&& 128 ≠ 0 then set_flag FlagN true cpu
  else cpu

/-- abx of opcode.rs: absolute addressing indexed by the X register; the
extra-cycle byte is 1 when the high byte of the indexed address differs
from the high byte supplied by the operand. -/
def abx (cpu : CPUState) : CPUState × Nat :=
  let lo := CPUread cpu cpu.program_counter
  let pc1 := (cpu.program_counter + 1) % 65536
  let hi := CPUread cpu pc1
  let pc2 := (pc1 + 1) % 65536
  let base := (hi <<< 8) ||| lo
  let addr := (base + cpu.regx) % 65536
  ({ cpu with program_counter := pc2, abs_addr := addr },
   if addr &&& 65280 ≠ (hi <<< 8) then 1 else 0)

/-- aby of opcode.rs (documented as the absolute Y addressing mode).  The
source adds the X register to the base address (line 74 of opcode.rs),
not the Y register. -/
def aby (cpu : CPUState) : CPUState × Nat :=
  let lo := CPUread cpu cpu.program_counter
  let pc1 := (cpu.program_counter + 1) % 65536
  let hi := CPUread cpu pc1
  let pc2 := (pc1 + 1) % 65536
  let base := (hi <<< 8) ||| lo
  let addr := (base + cpu.regx) % 65536
  ({ cpu with program_counter := pc2, abs_addr := addr },
   if addr &&& 65280 ≠ (hi <<< 8) then 1 else 0)

/-- indy of opcode.rs: post-indexed indirect addressing; dereference the
zero-page pointer (u8 wrapping on the pointer increment), add the Y
register, and report 1 when the high byte of the indexed address differs
from the dereferenced high byte. -/
def indy (cpu : CPUState) : CPUState × Nat :=
  let instruction := CPUread cpu cpu.program_counter
  let pc1 := (cpu.program_counter + 1) % 65536
  let lo := CPUread cpu (instruction &&& 255)
  let hi := CPUread cpu (((instruction + 1) % 256) &&& 255)
  let base := (hi <<< 8) ||| lo
  let addr := (base + cpu.regy) % 65536
  ({ cpu with program_counter := pc1, abs_addr := addr },
   if addr &&& 65280 ≠ (hi <<< 8) then 1 else 0)

/-- bcc of opcode.rs: when the Carry flag is clear, add one cycle,
compute the branch target as program counter plus relative offset
(u16 wrapping), add one more cycle when the target masked with 0x00FF
differs from the program counter masked with 0xFF00 (the masks exactly
as written in the source), and assign the target to the program
counter. -/
def bcc (cpu : CPUState) : CPUState :=
  if get_flag FlagC cpu = 0 then
    let c1 := { cpu with cycles := (cpu.cycles + 1) % 256 }
    let addr := (c1.program_counter + c1.rel_addr) % 65536
    let c2 := { c1 with abs_addr := addr }
    let c3 := if addr &&& 255 ≠ (c2.program_counter &&& 65280)
              then { c2 with cycles := (c2.cycles + 1) % 256 } else c2
    { c3 with program_counter := addr }
  else cpu

/-- beq of opcode.rs: same body as bcc, taken when the Zero flag is set. -/
def beq (cpu : CPUState) : CPUState :=
  if get_flag FlagZ cpu = 1 then
    let c1 := { cpu with cycles := (cpu.cycles + 1) % 256 }
    let addr := (c1.program_counter + c1.rel_addr) % 65536
    let c2 := { c1 with abs_addr := addr }
    let c3 := if addr &&& 255 ≠ (c2.program_counter &&& 65280)
              then { c2 with cycles := (c2.cycles + 1) % 256 } else c2
    { c3 with program_counter := addr }
  else cpu

/-- cmp of opcode.rs: fetch, compute fetched minus accumulator as u16
(wrapping model of the unchecked subtraction), set Carry from
accumulator greater-or-equal fetched, and apply the zero/negative rule
to the difference.  Named cmpOp because the source name cmp is taken by
the Lean core library. -/
def cmpOp (isImp : Bool) (cpu : CPUState) : CPUState :=
  let cpu := fetch isImp cpu
  let value := (cpu.fetched + 65536 - cpu.acu) % 65536
  let cpu := set_flag FlagC (decide (cpu.acu ≥ cpu.fetched)) cpu
  check_if_zero_or_negative_u16 cpu value

/-- cpx of opcode.rs: fetch, compute fetched minus the X register as u16,
but set Carry from the ACCUMULATOR greater-or-equal fetched (lines
447 to 450 of opcode.rs compare the accumulator, not the X register),
then apply the zero/negative rule to the difference. -/
def cpx (isImp : Bool) (cpu : CPUState) : CPUState :=
  let cpu := fetch isImp cpu
  let value := (cpu.fetched + 65536 - cpu.regx) % 65536
  let cpu := set_flag FlagC (decide (cpu.acu ≥ cpu.fetched)) cpu
  check_if_zero_or_negative_u16 cpu value

/-- cpy of opcode.rs: fetch, compute fetched minus the Y register as u16,
but set Carry from the ACCUMULATOR greater-or-equal fetched, then apply
the zero/negative rule to the difference. -/
def cpy (isImp : Bool) (cpu : CPUState) : CPUState :=
  let cpu := fetch isImp cpu
  let value := (cpu.fetched + 65536 - cpu.regy) % 65536
  let cpu := set_flag FlagC (decide (cpu.acu ≥ cpu.fetched)) cpu
  check_if_zero_or_negative_u16 cpu value

/-- lda of opcode.rs: fetch, load the accumulator from the fetched
operand, and apply the zero/negative rule to the accumulator; no flag is
cleared beforehand. -/
def lda (isImp : Bool) (cpu : CPUState) : CPUState :=
  let cpu := fetch isImp cpu
  let cpu := { cpu with acu := cpu.fetched }
  check_if_zero_or_negative_u8 cpu cpu.acu

/-- Checked u8 addition: a plain Rust addition on u8 whose overflow is a
panic under the default dev-profile overflow checks; none models the
panic. -/
def checkedAddU8 (a b : Nat) : Option Nat :=
  if a + b ≤ 255 then some (a + b) else none

/-- inx of opcode.rs under checked (dev-profile) arithmetic: the source
computes the successor of the X register with an unchecked u8 addition,
stores it, and applies the zero/negative rule. -/
def inxChecked (cpu : CPUState) : Option CPUState :=
  (checkedAddU8 cpu.regx 1).map
    (fun value => check_if_zero_or_negative_u8 { cpu with regx := value } value)

/-- zpx of opcode.rs under checked (dev-profile) arithmetic: the source
adds the operand byte and the X register with an unchecked u8 addition
before widening, advances the program counter, and masks the result to
the zero page. -/
def zpxChecked (cpu : CPUState) : Option CPUState :=
  (checkedAddU8 (CPUread cpu cpu.program_counter) cpu.regx).map
    (fun v => { cpu with abs_addr := v &&& 255,
                         program_counter := (cpu.program_counter + 1) % 65536 })

/-- Base CPU state for concrete evaluations: all fields zero, memory all
zero. -/
def baseCPU : CPUState :=
  { regx := 0, regy := 0, acu := 0, stack_pointer := 0, program_counter := 0,
    status := 0, fetched := 0, abs_addr := 0, rel_addr := 0, temp_op := 0,
    cur_opcode := 0, cycles := 0, clock_count := 0, mem := fun _ => 0 }

/-- Effects the interrupt push sequences must have, stated as the claim
states them: the program counter high byte lands at the stack address of
the original stack pointer, the low byte one below it, the status byte
(Break forced clear, unused forced set, interrupt-disable forced set)
one further below, the stack pointer ends three lower (mod 256), the
program counter is loaded little-endian from the two vector addresses,
and the cycle counter takes the given value. -/
def PushSequenceSpec (cpu c2 : CPUState) (vlo vhi cyc : Nat) : Prop :=
  c2.mem (256 + cpu.stack_pointer) = (cpu.program_counter >>> 8) &&& 255 ∧
  c2.mem (256 + (cpu.stack_pointer + 255) % 256) = cpu.program_counter &&& 255 ∧
  c2.mem (256 + (cpu.stack_pointer + 254) % 256) =
    ((cpu.status &&& (255 ^^^ FlagB)) ||| FlagG) ||| FlagI ∧
  c2.stack_pointer = (cpu.stack_pointer + 253) % 256 ∧
  c2.program_counter = ((cpu.mem vhi % 256) <<< 8) ||| (cpu.mem vlo % 256) ∧
  c2.cycles = cyc

/-- A state transformer preserves the two cycle counters: it leaves the
remaining-cycles field and the cumulative pulse counter untouched.  All
addressing modes of the source and all operation handlers except the
branch family satisfy this. -/
def PreservesCounters (f : CPUState → CPUState × Nat) : Prop :=
  ∀ c, (f c).1.cycles = c.cycles ∧ (f c).1.clock_count = c.clock_count

/-- Concrete state for the fetch claim: accumulator 7, stale fetched
byte 9, effective address 16, memory constantly 42. -/
def cpuC5 : CPUState :=
  { baseCPU with acu := 7, fetched := 9, abs_addr := 16, mem := fun _ => 42 }

/-- Concrete state for the indexed addressing claim: X = 1, Y = 0, and
the two operand bytes at addresses 0 and 1 encode the base address
0x1234 little-endian. -/
def cpuC6 : CPUState :=
  { baseCPU with regx := 1, regy := 0,
                 mem := fun a => if a = 0 then 52 else if a = 1 then 18 else 0 }

/-- Concrete state for the branch claim: Carry clear, program counter
0x0100, relative offset 0, no cycles pending. -/
def cpuC7 : CPUState :=
  { baseCPU with program_counter := 256 }

/-- Concrete state for the compare claim: X = 3, fetched operand 3
(non-implied mode, so fetch leaves it), accumulator 0. -/
def cpuC8 : CPUState :=
  { baseCPU with regx := 3, fetched := 3, acu := 0 }

/-- Concrete state for the overflow claim: X register at 0xFF. -/
def cpuC9a : CPUState :=
  { baseCPU with regx := 255 }

/-- Concrete state for the overflow claim: operand byte 0x80 under the
program counter and X = 0x80, so the zero-page index addition overflows
u8. -/
def cpuC9b : CPUState :=
  { baseCPU with regx := 128, mem := fun _ => 128 }

/-- Concrete state for the zero/negative claim: Zero flag already set in
the status register, fetched operand 0x80 (negative). -/
def cpuC10 : CPUState :=
  { baseCPU with status := 2, fetched := 128 }

/-- C3: the claim states that BUS reads and writes succeed for every
address in 0..=65535, in particular the vector reads at 0xFFFA through
0xFFFF performed by reset and the interrupt sequences.  The ram array of
bus.rs has 2048 cells and is indexed with the raw 16-bit address, so the
reset-vector read at 0xFFFC (and any access at or above 0x0800) is out
of bounds: the model returns none, the Rust code panics. -/
theorem c3_bus_rejects_reset_vector :
    BUSread BUSinitialRam 65532 = none ∧ BUSwrite BUSinitialRam 65532 0 = none := by
  constructor
  · have h : BUSinitialRam.length ≤ 65532 := by
      rw [BUSinitialRam, List.length_replicate]; decide
    exact List.get?_eq_none.mpr h
  · have h : ¬ 65532 < BUSinitialRam.length := by
      rw [BUSinitialRam, List.length_replicate]; decide
    simp [BUSwrite, h]

/-- C5: the claim states that fetch sets the fetched operand to the
accumulator with no bus read for implied addressing, and otherwise sets
it to the byte at the effective address.  In the source the condition is
inverted and the accumulator assignment absent: for a non-implied mode
fetch leaves the stale fetched byte (here 9) instead of loading the
memory byte (42), and for the implied mode it loads the memory byte
instead of the accumulator (7). -/
theorem c5_fetch_condition_inverted :
    (fetch false cpuC5).fetched = 9 ∧
    CPUread cpuC5 cpuC5.abs_addr = 42 ∧
    (fetch true cpuC5).fetched = 42 ∧
    cpuC5.acu = 7 := by
  refine ⟨rfl, rfl, rfl, rfl⟩

/-- C6: the claim states that absolute-Y adds the Y index register to
the base address.  The source (opcode.rs line 74) adds the X register:
with base 0x1234, X = 1 and Y = 0 the resolved effective address is
0x1235 = base + X rather than 0x1234 = base + Y. -/
theorem c6_aby_adds_x_register :
    (aby cpuC6).1.abs_addr = (4660 + cpuC6.regx) % 65536 ∧
    (aby cpuC6).1.abs_addr ≠ (4660 + cpuC6.regy) % 65536 := by
  refine ⟨rfl, by decide⟩

/-- C7: the claim states that a taken branch costs one extra cycle plus
a second one exactly when the high byte of the target differs from the
high byte of the pre-branch program counter.  The source compares the
target masked with 0x00FF against the program counter masked with
0xFF00: from program counter 0x0100 with offset 0 the branch stays on
the same page (equal high bytes), yet bcc charges 2 extra cycles
instead of 1. -/
theorem c7_branch_page_mask_wrong :
    (bcc cpuC7).cycles = 2 ∧
    (bcc cpuC7).program_counter >>> 8 = cpuC7.program_counter >>> 8 ∧
    get_flag FlagC cpuC7 = 0 := by
  refine ⟨rfl, rfl, rfl⟩

/-- C8: the claim states that CPX sets Carry exactly when the X register
is unsigned greater-or-equal to the operand.  The source (opcode.rs
lines 447 to 450) compares the ACCUMULATOR against the operand: with
X = 3, operand 3 and accumulator 0, Carry comes out clear although
X >= operand. -/
theorem c8_cpx_carry_uses_accumulator :
    get_flag FlagC (cpx false cpuC8) = 0 ∧ cpuC8.regx ≥ cpuC8.fetched := by
  refine ⟨rfl, by decide⟩

/-- C9: the claim states that register arithmetic wraps modulo the
register width and never faults.  The source uses plain unchecked u8
arithmetic (regx + 1 in inx, operand + regx in zpx, stack_pointer - 1 in
the pushes); under the overflow checks of the default dev profile these
panic instead of wrapping.  The checked model returns none for INX at
X =uFF and for a zero-page-X resolution with operand 0x80 and X = 0x80. -/
theorem c9_unchecked_overflow_faults :
    inxChecked cpuC9a = none ∧ zpxChecked cpuC9b = none := by
  refine ⟨rfl, rfl⟩

/-- C10 counterexample: the claim states that after any instruction that
applies the zero/negative rule the status register never has Zero and
Negative both set.  lda applies the rule without clearing flags first:
from a state whose Zero flag is already set, loading the value 0x80 sets
Negative and leaves Zero, so both flags end up set. -/
theorem c10_both_flags_after_lda :
    get_flag FlagZ (lda false cpuC10) = 1 ∧ get_flag FlagN (lda false cpuC10) = 1 := by
  refine ⟨rfl, rfl⟩

theorem FlagZ_eq : FlagZ = 2^1 := rfl

theorem FlagN_eq : FlagN = 2^7 := rfl

theorem get_flag_testBit (i : Nat) (cpu : CPUState) :
    get_flag (2^i) cpu = if cpu.status.testBit i then 1 else 0 := by
  unfold get_flag
  rw [Nat.and_two_pow]
  cases h : cpu.status.testBit i <;> simp [h, Nat.two_pow_pos]

theorem get_flag_set_pow (i j : Nat) (hi : i < 8) (b : Bool) (cpu : CPUState) :
    get_flag (2^i) (set_flag (2^j) b cpu) =
      if i = j then (if b then 1 else 0) else get_flag (2^i) cpu := by
  have h255t : ∀ k : Nat, (255 : Nat).testBit k = decide (k < 8) := fun k => by
    rw [show (255 : Nat) = 2^8 - 1 from rfl, Nat.testBit_two_pow_sub_one]
  by_cases hij : i = j
  · subst hij
    cases b
    · unfold set_flag
      rw [if_neg Bool.false_ne_true]
      simp [get_flag_testBit, Nat.testBit_and, Nat.testBit_xor, h255t,
            Nat.testBit_two_pow_self, hi]
    · unfold set_flag
      rw [if_pos rfl]
      simp [get_flag_testBit, Nat.testBit_or, Nat.testBit_two_pow_self]
  · have hji : (2^j).testBit i = false := Nat.testBit_two_pow_of_ne (Ne.symm hij)
    cases b
    · unfold set_flag
      rw [if_neg Bool.false_ne_true]
      simp [get_flag_testBit, Nat.testBit_and, Nat.testBit_xor, h255t, hji, hij, hi]
    · unfold set_flag
      rw [if_pos rfl]
      simp [get_flag_testBit, Nat.testBit_or, hji, hij]

theorem and_mask_zero_bit {x m : Nat} (h : x &&& m = 0) {i : Nat}
    (hm : m.testBit i = true) : x.testBit i = false := by
  have hc := congrArg (fun n => Nat.testBit n i) h
  simpa [Nat.testBit_and, hm] using hc

theorem check_u8_not_both (cpu : CPUState) (v : Nat)
    (h : cpu.status &&& (FlagZ ||| FlagN) = 0) :
    ¬(get_flag FlagZ (check_if_zero_or_negative_u8 cpu v) = 1 ∧
      get_flag FlagN (check_if_zero_or_negative_u8 cpu v) = 1) := by
  have hz : cpu.status.testBit 1 = false := and_mask_zero_bit h (by decide)
  have hn : cpu.status.testBit 7 = false := and_mask_zero_bit h (by decide)
  rintro ⟨hZ, hN⟩
  unfold check_if_zero_or_negative_u8 at hZ hN
  by_cases h0 : v = 0
  · rw [if_pos h0] at hN
    rw [FlagN_eq, FlagZ_eq, get_flag_set_pow 7 1 (by decide)] at hN
    rw [if_neg (by decide), get_flag_testBit, hn] at hN
    exact absurd hN (by decide)
  · rw [if_neg h0] at hZ
    by_cases h7 : v &&& 128 ≠ 0
    · rw [if_pos h7] at hZ
      rw [FlagN_eq, FlagZ_eq, get_flag_set_pow 1 7 (by decide)] at hZ
      rw [if_neg (by decide), get_flag_testBit, hz] at hZ
      exact absurd hZ (by decide)
    · rw [if_neg h7] at hZ
      rw [FlagZ_eq, get_flag_testBit, hz] at hZ
      exact absurd hZ (by decide)

theorem fetch_status (b : Bool) (cpu : CPUState) : (fetch b cpu).status = cpu.status := by
  cases b <;> rfl

/-- C10: the claim asserts (a) the zero/negative rule sets Zero when the
low byte of the value is 0 and otherwise sets Negative when bit 7 of the
low byte is set, and (b) after any instruction applying the rule, Zero
and Negative are never both set.  Part (b) fails as stated (see the
counterexample theorem): the rule only ever sets flags, so a stale Zero
survives an instruction such as lda that does not clear flags first.
Amended form proved here: the rule behaves as described on the Zero and
Negative bits, a single application never sets both, and when neither
Zero nor Negative is set before the rule (or before lda) runs, the two
flags are not both set afterwards. -/
theorem c10_zero_negative_rule (cpu : CPUState) (value : Nat) :
    (get_flag FlagZ (check_if_zero_or_negative_u16 cpu value) = 1 ↔
        (value &&& 255 = 0 ∨ get_flag FlagZ cpu = 1)) ∧
    (get_flag FlagN (check_if_zero_or_negative_u16 cpu value) = 1 ↔
        ((value &&& 255 ≠ 0 ∧ (value &&& 255) &&& 128 ≠ 0) ∨ get_flag FlagN cpu = 1)) ∧
    (cpu.status &&& (FlagZ ||| FlagN) = 0 →
        ¬(get_flag FlagZ (check_if_zero_or_negative_u16 cpu value) = 1 ∧
          get_flag FlagN (check_if_zero_or_negative_u16 cpu value) = 1)) ∧
    (∀ b : Bool, cpu.status &&& (FlagZ ||| FlagN) = 0 →
        ¬(get_flag FlagZ (lda b cpu) = 1 ∧ get_flag FlagN (lda b cpu) = 1)) := by
  refine ⟨?_, ?_, ?_, ?_⟩
  · unfold check_if_zero_or_negative_u16
    by_cases h0 : value &&& 255 = 0
    · rw [if_pos h0, FlagZ_eq, get_flag_set_pow 1 1 (by decide)]
      simp [h0]
    · rw [if_neg h0]
      by_cases h7 : (value &&& 255) &&& 128 ≠ 0
      · rw [if_pos h7, FlagZ_eq, FlagN_eq, get_flag_set_pow 1 7 (by decide)]
        rw [if_neg (by decide)]
        simp [h0, FlagZ_eq]
      · rw [if_neg h7]
        simp [h0]
  · unfold check_if_zero_or_negative_u16
    by_cases h0 : value &&& 255 = 0
    · rw [if_pos h0, FlagZ_eq, FlagN_eq, get_flag_set_pow 7 1 (by decide)]
      rw [if_neg (by decide)]
      simp [h0, FlagN_eq]
    · rw [if_neg h0]
      by_cases h7 : (value &&& 255) &&& 128 ≠ 0
      · rw [if_pos h7, FlagN_eq, get_flag_set_pow 7 7 (by decide)]
        simp [h0, h7]
      · rw [if_neg h7]
        simp [h0, h7]
  · intro h
    have hz : cpu.status.testBit 1 = false := and_mask_zero_bit h (by decide)
    have hn : cpu.status.testBit 7 = false := and_mask_zero_bit h (by decide)
    rintro ⟨hZ, hN⟩
    unfold check_if_zero_or_negative_u16 at hZ hN
    by_cases h0 : value &&& 255 = 0
    · rw [if_pos h0, FlagN_eq, FlagZ_eq, get_flag_set_pow 7 1 (by decide)] at hN
      rw [if_neg (by decide), get_flag_testBit, hn] at hN
      exact absurd hN (by decide)
    · rw [if_neg h0] at hZ
      by_cases h7 : (value &&& 255) &&& 128 ≠ 0
      · rw [if_pos h7, FlagZ_eq, FlagN_eq, get_flag_set_pow 1 7 (by decide)] at hZ
        rw [if_neg (by decide), get_flag_testBit, hz] at hZ
        exact absurd hZ (by decide)
      · rw [if_neg h7, FlagZ_eq, get_flag_testBit, hz] at hZ
        exact absurd hZ (by decide)
  · intro b h
    unfold lda
    apply check_u8_not_both
    rw [fetch_status]
    exact h

/-- C10 witness: the amended rule theorem applied at the all-zero state
and value 0, giving that lda from a clean status never leaves Zero and
Negative both set. -/
theorem c10_zero_negative_rule_witness :
    ¬(get_flag FlagZ (lda false baseCPU) = 1 ∧
      get_flag FlagN (lda false baseCPU) = 1) :=
  (c10_zero_negative_rule baseCPU 0).2.2.2 false rfl

theorem foldl_set_length (l : List (Nat × INSTRUCTION)) (acc : List INSTRUCTION) :
    (l.foldl (fun t e => t.set e.1 e.2) acc).length = acc.length := by
  induction l generalizing acc with
  | nil => rfl
  | cons e l ih => rw [List.foldl_cons, ih, List.length_set]

theorem foldl_set_get?_of_not_mem (l : List (Nat × INSTRUCTION))
    (acc : List INSTRUCTION) (b : Nat) (h : ∀ e ∈ l, e.1 ≠ b) :
    (l.foldl (fun t e => t.set e.1 e.2) acc).get? b = acc.get? b := by
  induction l generalizing acc with
  | nil => rfl
  | cons e l ih =>
    have he : e.1 ≠ b := h e (List.mem_cons_self e l)
    have hl : ∀ x ∈ l, x.1 ≠ b := fun x hx => h x (List.mem_cons_of_mem e hx)
    rw [List.foldl_cons, ih _ hl, List.get?_set_ne e.2 acc he]

theorem get?_replicate_of_lt {α : Type} (a : α) (n b : Nat) (h : b < n) :
    (List.replicate n a).get? b = some a := by
  induction n generalizing b with
  | zero => omega
  | succ n ih =>
    cases b with
    | zero => rfl
    | succ b =>
      rw [List.replicate_succ]
      exact ih b (by omega)

/-- C1: every one of the 256 byte values indexes a defined descriptor of
the dispatch table, and every byte that carries no official instruction
resolves to the fallback no-op descriptor with base cycle cost 2.  The
table contents are spec-modelled (buildLookupTable), since the source
declares lookup_table as an empty vector and its population is absent
from the repository. -/
theorem c1_dispatch_table_total (official : List (Nat × INSTRUCTION)) (b : Nat)
    (hb : b < 256) :
    (buildLookupTable official).length = 256 ∧
    (∃ i, (buildLookupTable official).get? b = some i) ∧
    ((∀ e ∈ official, e.1 ≠ b) →
      (buildLookupTable official).get? b = some fallbackInstr ∧
      fallbackInstr.cycles = 2) := by
  have hlen : (buildLookupTable official).length = 256 := by
    unfold buildLookupTable
    rw [foldl_set_length, List.length_replicate]
  refine ⟨hlen, ?_, ?_⟩
  · have hlt : b < (buildLookupTable official).length := by omega
    exact ⟨_, List.get?_eq_get hlt⟩
  · intro hmem
    refine ⟨?_, rfl⟩
    unfold buildLookupTable
    rw [foldl_set_get?_of_not_mem official _ b hmem]
    exact get?_replicate_of_lt fallbackInstr 256 b hb

/-- C1 witness: the dispatch-table theorem applied to the table with no
official entries at opcode byte 0. -/
theorem c1_dispatch_table_witness :
    (buildLookupTable []).get? 0 = some fallbackInstr :=
  ((c1_dispatch_table_total [] 0 (by decide)).2.2 (by intro e he; cases he)).1

/-- C2: from the idle state (remaining cycles 0) a clock pulse loads the
descriptor, sets the cycle counter to the base cost plus the bitwise AND
of the byte returned by the addressing-mode function and the byte
returned by the operation function, and, like every pulse, increments
the cumulative pulse counter by exactly 1 and decrements the cycle
counter by exactly 1; from a busy state the pulse only performs the two
counter updates.  The handler functions are assumed to leave the two
counters alone (true of every addressing mode and of every non-branch
handler; branch handlers adjust cycles themselves and are treated by the
branch claim) and the mode flag to be a 0/1 byte, and the counters are
assumed within their machine widths. -/
theorem c2_clock_cycle_accounting (table : List INSTRUCTION) (cpu : CPUState)
    (instr : INSTRUCTION)
    (hlook : table.get? (CPUread cpu cpu.program_counter) = some instr)
    (hA : PreservesCounters instr.addr_mode)
    (hB : PreservesCounters instr.operate)
    (hflag : (instr.addr_mode (idleEntry instr cpu)).2 ≤ 1)
    (hbase : 1 ≤ instr.cycles) (hbase2 : instr.cycles < 255)
    (hcc : cpu.clock_count + 1 < 4294967296)
    (hcyc : cpu.cycles < 256) :
    (cpu.cycles = 0 →
       (clock table cpu).map CPUState.cycles =
         some (instr.cycles +
           ((instr.addr_mode (idleEntry instr cpu)).2 &&&
            (instr.operate (instr.addr_mode (idleEntry instr cpu)).1).2) - 1) ∧
       (clock table cpu).map CPUState.clock_count = some (cpu.clock_count + 1)) ∧
    (cpu.cycles ≠ 0 →
       (clock table cpu).map CPUState.cycles = some (cpu.cycles - 1) ∧
       (clock table cpu).map CPUState.clock_count = some (cpu.clock_count + 1)) := by
  constructor
  · intro h0
    have e1 : (instr.addr_mode (idleEntry instr cpu)).1.cycles = instr.cycles := by
      rw [(hA (idleEntry instr cpu)).1]
      rfl
    have e2 : (instr.operate (instr.addr_mode (idleEntry instr cpu)).1).1.cycles
        = instr.cycles := by
      rw [(hB (instr.addr_mode (idleEntry instr cpu)).1).1, e1]
    have e3 : (instr.addr_mode (idleEntry instr cpu)).1.clock_count
        = cpu.clock_count := by
      rw [(hA (idleEntry instr cpu)).2]
      rfl
    have e4 : (instr.operate (instr.addr_mode (idleEntry instr cpu)).1).1.clock_count
        = cpu.clock_count := by
      rw [(hB (instr.addr_mode (idleEntry instr cpu)).1).2, e3]
    have hE : ((instr.addr_mode (idleEntry instr cpu)).2 &&&
        (instr.operate (instr.addr_mode (idleEntry instr cpu)).1).2) ≤ 1 :=
      le_trans Nat.and_le_left hflag
    unfold clock
    rw [if_pos h0, hlook]
    constructor
    · simp only [Option.map_some']
      congr 1
      rw [e2]
      omega
    · simp only [Option.map_some']
      congr 1
      rw [e4]
      omega
  · intro hne
    unfold clock
    rw [if_neg hne]
    constructor
    · simp only [Option.map_some']
      congr 1
      omega
    · simp only [Option.map_some']
      congr 1
      omega

/-- C2 witness: the accounting theorem applied to a singleton table
holding the fallback descriptor (base cost 2, both flags 0) at the
all-zero idle state: the pulse leaves 1 remaining cycle and a pulse
count of 1. -/
theorem c2_clock_cycle_witness :
    (clock [fallbackInstr] baseCPU).map CPUState.cycles = some 1 ∧
    (clock [fallbackInstr] baseCPU).map CPUState.clock_count = some 1 :=
  (c2_clock_cycle_accounting [fallbackInstr] baseCPU fallbackInstr rfl
    (fun c => ⟨rfl, rfl⟩) (fun c => ⟨rfl, rfl⟩) (by decide) (by decide) (by decide)
    (by decide) (by decide)).1 rfl

theorem interruptBody_spec (cpu : CPUState) (vlo vhi cyc : Nat)
    (hsp : cpu.stack_pointer < 256) (hlo : 511 < vlo) (hhi : 511 < vhi) :
    PushSequenceSpec cpu (interruptBody vlo vhi cyc cpu) vlo vhi cyc := by
  have hmem : ∀ a, (interruptBody vlo vhi cyc cpu).mem a =
      (if a = 256 + ((cpu.stack_pointer + 255) % 256 + 255) % 256 then
         ((cpu.status &&& (255 ^^^ FlagB)) ||| FlagG) ||| FlagI
       else if a = 256 + (cpu.stack_pointer + 255) % 256 then
         cpu.program_counter &&& 255
       else if a = 256 + cpu.stack_pointer then
         (cpu.program_counter >>> 8) &&& 255
       else cpu.mem a) := fun a => rfl
  have hsp3 : (interruptBody vlo vhi cyc cpu).stack_pointer =
      (((cpu.stack_pointer + 255) % 256 + 255) % 256 + 255) % 256 := rfl
  have hpc : (interruptBody vlo vhi cyc cpu).program_counter =
      (((interruptBody vlo vhi cyc cpu).mem vhi % 256) <<< 8) |||
        ((interruptBody vlo vhi cyc cpu).mem vlo % 256) := rfl
  have hcy : (interruptBody vlo vhi cyc cpu).cycles = cyc := rfl
  refine ⟨?_, ?_, ?_, ?_, ?_, hcy⟩
  · rw [hmem, if_neg (by omega), if_neg (by omega), if_pos rfl]
  · rw [hmem, if_neg (by omega), if_pos rfl]
  · rw [hmem, if_pos (by omega)]
  · rw [hsp3]; omega
  · rw [hpc, hmem vhi, hmem vlo,
        if_neg (by omega), if_neg (by omega), if_neg (by omega),
        if_neg (by omega), if_neg (by omega), if_neg (by omega)]

/-- C4: interrupt_request changes nothing when the interrupt-disable
flag is set; when it is clear it pushes the program counter high byte,
low byte and the status register with Break forced clear, unused forced
set and interrupt-disable forced set, decrementing the stack pointer
(mod 256) after each push, loads the program counter from 0xFFFE/0xFFFF
and sets the cycle counter to 7; non_maskable_input performs the
identical push sequence unconditionally with vectors 0xFFFA/0xFFFB and
cycle counter 8. -/
theorem c4_interrupt_sequences (cpu : CPUState) (hsp : cpu.stack_pointer < 256) :
    (get_flag FlagI cpu ≠ 0 → interrupt_request cpu = cpu) ∧
    (get_flag FlagI cpu = 0 →
        PushSequenceSpec cpu (interrupt_request cpu) 65534 65535 7) ∧
    PushSequenceSpec cpu (non_maskable_input cpu) 65530 65531 8 := by
  refine ⟨?_, ?_, ?_⟩
  · intro h
    unfold interrupt_request
    rw [if_neg h]
  · intro h
    unfold interrupt_request
    rw [if_pos h]
    exact interruptBody_spec cpu 65534 65535 7 hsp (by decide) (by decide)
  · exact interruptBody_spec cpu 65530 65531 8 hsp (by decide) (by decide)

/-- C4 witness: the interrupt theorem applied at the all-zero state (its
interrupt-disable flag is clear and its stack pointer below 256),
extracting the NMI push-sequence effects. -/
theorem c4_interrupt_witness :
    PushSequenceSpec baseCPU (non_maskable_input baseCPU) 65530 65531 8 :=
  (c4_interrupt_sequences baseCPU (by decide)).2.2
